/-
Verification of the agent-orchestration core of the `my-api` repository:
the tool dispatcher (`app/utils/tools.py`), the history compressor and the
step-bounded agent loop (`app/services/coding_agent_service.py`), and the
image/artifact extraction (`app/utils/image_processor.py`).

The Python code is shallowly embedded:
* Python dicts/JSON values are the inductive `JVal` (with mutual `JArr`/`JObj`
  for nested arrays/objects); a chat message is an association list
  `Msg = List (String × JVal)` in insertion order, exactly the dict the code
  builds.
* `json.dumps` (default separators, `ensure_ascii=True`) is `dumps`, so the
  character counts used by the compressor are computed, not assumed.
* The two module constants are `TOKEN_LIMIT = 60000` and
  `COMPRESS_THRESHOLD = 0.7`.  `0.7` is a binary64 literal, whose exact value
  is the dyadic rational 6305039478318694 / 2^53 (slightly below 7/10); float
  products such as `TOKEN_LIMIT * COMPRESS_THRESHOLD` are modelled by exact
  round-to-nearest-even multiplication on dyadic rationals (`flRat`), and the
  int-vs-float comparisons of the source are exact comparisons, as in Python.
* External collaborators are parameters: the summarization model call behind
  `compress_messages` is an oracle returning the extracted snapshot text, the
  chat model is an oracle returning one structured response per call,
  `json.loads` is a parameter of the dispatcher, and the file system of the
  image processor is a partial map from paths to bytes.

String primitives (`split`, `strip`, `replace`, `startswith`, containment)
are re-implemented on `List Char` by structural recursion so that every
definition evaluates inside the kernel (`decide`/`rfl`).
-/
import Mathlib

namespace AgentCore

/-! ## Python string primitives, re-implemented structurally on `List Char` -/

/-- Python `str.startswith`: list-level prefix test. -/
def pyStartsWith (s pre : String) : Bool :=
  pre.toList.isPrefixOf s.toList

/-- Characters stripped by Python `str.strip()` (ASCII whitespace; the
conversation strings in scope are ASCII). -/
def pyIsSpace (c : Char) : Bool :=
  c = ' ' || c = '\t' || c = '\n' || c = '\x0d' || c = '\x0b' || c = '\x0c'

/-- Python `str.strip()`. -/
def pyStrip (s : String) : String :=
  ⟨((s.toList.dropWhile pyIsSpace).reverse.dropWhile pyIsSpace).reverse⟩

/-- One step of substring containment: does `needle` occur in `hay`? -/
def containsAux : List Char → List Char → Bool
  | [], needle => needle.isEmpty
  | hay@(_ :: rest), needle => needle.isPrefixOf hay || containsAux rest needle

/-- Python `needle in hay` on strings. -/
def pyContains (hay needle : String) : Bool :=
  containsAux hay.toList needle.toList

/-- Fuel-driven worker for `str.replace` (every occurrence replaced,
left to right; `old` is nonempty at every use site). -/
def replaceAux : Nat → List Char → List Char → List Char → List Char
  | 0, s, _, _ => s
  | _ + 1, [], _, _ => []
  | fuel + 1, s@(c :: rest), old, new =>
    if old.isPrefixOf s then new ++ replaceAux fuel (s.drop old.length) old new
    else c :: replaceAux fuel rest old new

/-- Python `s.replace(old, new)` (all occurrences). -/
def pyReplace (s old new : String) : String :=
  ⟨replaceAux s.toList.length s.toList old.toList new.toList⟩

/-- Fuel-driven worker for `str.split(sep)`; `acc` is the current chunk,
reversed.  `sep` is nonempty at every use site. -/
def splitAux : Nat → List Char → List Char → List Char → List (List Char)
  | 0, s, _, acc => [acc.reverse ++ s]
  | _ + 1, [], _, acc => [acc.reverse]
  | fuel + 1, s@(c :: rest), sep, acc =>
    if sep.isPrefixOf s then acc.reverse :: splitAux fuel (s.drop sep.length) sep []
    else splitAux fuel rest sep (c :: acc)

/-- Python `s.split(sep)` for a nonempty separator. -/
def pySplit (s sep : String) : List String :=
  (splitAux (s.toList.length + 1) s.toList sep.toList []).map List.asString

/-- ASCII lower-casing, as applied by `str.lower()` to the path suffixes in
scope. -/
def pyLower (s : String) : String :=
  ⟨s.toList.map Char.toLower⟩

/-- Join a list of strings with a separator (used by the JSON serializer). -/
def joinWith (sep : String) : List String → String
  | [] => ""
  | [s] => s
  | s :: rest => s ++ sep ++ joinWith sep rest

/-! ## JSON values and Python dicts -/

mutual
/-- A JSON value / Python object, as manipulated by the service code. -/
inductive JVal where
  | null : JVal
  | bool (b : Bool) : JVal
  | num (n : Int) : JVal
  | str (s : String) : JVal
  | arr (xs : JArr) : JVal
  | obj (kvs : JObj) : JVal

/-- A JSON array (spine kept as a dedicated inductive so that all recursion
over `JVal` is structural and kernel-reducible). -/
inductive JArr where
  | nil : JArr
  | cons (v : JVal) (rest : JArr) : JArr

/-- A JSON object / Python dict, in insertion order. -/
inductive JObj where
  | nil : JObj
  | cons (k : String) (v : JVal) (rest : JObj) : JObj
end

/-- A chat message: the Python dict, in insertion order. -/
abbrev Msg := List (String × JVal)

/-- Hex digit for `\uXXXX` escapes. -/
def hexDigit (n : Nat) : Char :=
  if n < 10 then Char.ofNat (n + 48) else Char.ofNat (n + 87)

/-- Escape one character the way `json.dumps` (with `ensure_ascii=True`)
does. -/
def jsonEscapeChar (c : Char) : List Char :=
  if c = '"' then ['\\', '"']
  else if c = '\\' then ['\\', '\\']
  else if c = '\n' then ['\\', 'n']
  else if c = '\t' then ['\\', 't']
  else if c = '\x0d' then ['\\', 'r']
  else if c.toNat < 32 || c.toNat ≥ 127 then
    let n := c.toNat % 65536
    ['\\', 'u', hexDigit (n / 4096), hexDigit (n / 256 % 16),
     hexDigit (n / 16 % 16), hexDigit (n % 16)]
  else [c]

/-- Serialize a string literal as `json.dumps` does. -/
def dumpsStr (s : String) : String :=
  "\"" ++ ⟨s.toList.flatMap jsonEscapeChar⟩ ++ "\""

mutual
/-- `json.dumps` with the default separators `", "` and `": "`. -/
def dumps : JVal → String
  | .null => "null"
  | .bool true => "true"
  | .bool false => "false"
  | .num n => toString n
  | .str s => dumpsStr s
  | .arr xs => "[" ++ dumpsArr xs ++ "]"
  | .obj kvs => "\x7b" ++ dumpsObj kvs ++ "\x7d"

/-- Serialize the elements of a JSON array, comma-separated. -/
def dumpsArr : JArr → String
  | .nil => ""
  | .cons v .nil => dumps v
  | .cons v rest => dumps v ++ ", " ++ dumpsArr rest

/-- Serialize the entries of a JSON object, comma-separated. -/
def dumpsObj : JObj → String
  | .nil => ""
  | .cons k v .nil => dumpsStr k ++ ": " ++ dumps v
  | .cons k v rest => dumpsStr k ++ ": " ++ dumps v ++ ", " ++ dumpsObj rest
end

/-- Serialize a message dict, as `json.dumps(message)` does. -/
def dumpsMsg (m : Msg) : String :=
  "\x7b" ++ joinWith (", ") (m.map fun kv => dumpsStr kv.1 ++ ": " ++ dumps kv.2) ++ "\x7d"

/-! ## Exact binary64 arithmetic for the two float-valued expressions

The source computes `TOKEN_LIMIT * COMPRESS_THRESHOLD` and
`total_chars * COMPRESS_THRESHOLD` in double precision and compares the
results against Python ints.  Both comparisons in Python are exact (ints are
compared with floats at full precision), so it suffices to represent the
float values exactly.  Every positive double is a dyadic rational `m / 2^s`;
`flRat n d` rounds the positive rational `n / d` to the nearest double
(ties to even), which is exactly the semantics of the float literal `0.7`
and of one float multiplication of exactly-representable operands. -/

/-- A nonnegative dyadic rational `m / 2^s`; the exact value of a binary64
float in the range used here. -/
structure Dy where
  m : Nat
  s : Nat
deriving DecidableEq

/-- Find the largest `t ≤ fuel₀` with `d * 2^t ≤ n100` by descending from
`fuel₀` (`n100` is the numerator pre-scaled by `2^100`).  Used to locate the
binary exponent of `n / d`. -/
def findExpAux (d : Nat) : Nat → Nat → Nat
  | 0, _ => 0
  | t + 1, n100 => if d * 2 ^ (t + 1) ≤ n100 then t + 1 else findExpAux d t n100

/-- Round a nonnegative rational `num / d` to an integer, ties to even
(`num`, `d` natural, `d > 0`): IEEE-754 round-to-nearest-even. -/
def roundHalfEven (num d : Nat) : Nat :=
  let q := num / d
  let r := num % d
  if 2 * r < d then q
  else if 2 * r > d then q + 1
  else if q % 2 = 0 then q else q + 1

/-- Round the positive rational `n / d` to the nearest binary64 value
(ties to even), returned exactly as a dyadic rational.  Correct for the
magnitudes in scope (no overflow/subnormal handling needed). -/
def flRat (n d : Nat) : Dy :=
  let t := findExpAux d 200 (n * 2 ^ 100)
  -- binary exponent e = t - 100 satisfies 2^e ≤ n/d < 2^(e+1); scale the
  -- mantissa to 53 bits: s = 52 - e = 152 - t
  ⟨roundHalfEven (n * 2 ^ (152 - t)) d, 152 - t⟩

/-- `x ≤ d` for a Python int `x` and a float with exact value `d`
(Python compares int against float exactly). -/
def natLeDy (x : Nat) (d : Dy) : Bool :=
  x * 2 ^ d.s ≤ d.m

/-- `x ≥ d` for a Python int `x` and a float with exact value `d`. -/
def natGeDy (x : Nat) (d : Dy) : Bool :=
  d.m ≤ x * 2 ^ d.s

/-- Python `int * float`: exact conversion of the int followed by one
correctly rounded multiplication. -/
def floatMulNat (k : Nat) (d : Dy) : Dy :=
  flRat (k * d.m) (2 ^ d.s)

/-! ## Module constants of `coding_agent_service.py` -/

/-- `TOKEN_LIMIT = 60_000`. -/
def TOKEN_LIMIT : Nat := 60000

/-- `COMPRESS_THRESHOLD = 0.7`: the exact value of the binary64 literal,
`6305039478318694 / 2^53` (slightly below `7/10`). -/
def COMPRESS_THRESHOLD : Dy := flRat 7 10

/-! ## Message helpers shared by the compressor and the loop -/

/-- Value of a key in a message dict (`message[k]` / `k in message`);
first binding wins, as in a Python dict. -/
def getKey (m : Msg) (k : String) : Option JVal :=
  match m.find? (fun kv => kv.1 == k) with
  | some kv => some kv.2
  | none => none

/-- Python `"role" in message and message["role"] == "user"`. -/
def isUserMsg (m : Msg) : Bool :=
  match getKey m ("role") with
  | some (.str s) => s == "user"
  | _ => false

/-- Python `"type" in message and message["type"] == "function_call"`
(the legacy Responses-API shape tested by the compression edge case). -/
def isFunctionCallType (m : Msg) : Bool :=
  match getKey m ("type") with
  | some (.str s) => s == "function_call"
  | _ => false

/-! ## `clean_messages_for_llm` and the compressor
(`app/services/coding_agent_service.py`) -/

/-- `clean_messages_for_llm`: drop every key starting with an underscore
from every message (a fresh dict is built for each message). -/
def clean_messages_for_llm (messages : List Msg) : List Msg :=
  messages.map fun m => m.filter fun kv => !(pyStartsWith kv.1 ("_"))

/-- `compress_messages`: the summarization model call is the external
collaborator; `context` is the text extracted from its response by the
`<state_snapshot>` regex.  The function replaces the compressed prefix with
exactly these two synthetic messages. -/
def compress_messages (context : String) : List Msg :=
  [ [("role", .str ("user")),
     ("content", .str ("This is snapshot of the conversation so far:\n" ++ context))],
    [("role", .str ("assistant")),
     ("content", .str ("Got it. Thanks for the additional context!"))] ]

/-- The walk of `get_compress_message_index`: return the first index at
which the running character total reaches the target, or the total number
of entries if it never does. -/
def compressWalk (target : Dy) : List Nat → Nat → Nat → Nat → Nat
  | [], _, _, len => len
  | c :: rest, curr, idx, len =>
    if natGeDy (curr + c) target then idx
    else compressWalk target rest (curr + c) (idx + 1) len

/-- Serialized character length of each message, `len(json.dumps(message))`. -/
def msgChars (messages : List Msg) : List Nat :=
  messages.map fun m => (dumpsMsg m).length

/-- `get_compress_message_index`: split point of the compressor, determined
by the cumulative serialized character count against
`total_chars * COMPRESS_THRESHOLD` (a float product, modelled exactly). -/
def get_compress_message_index (messages : List Msg) : Nat :=
  let chars := msgChars messages
  let target := floatMulNat chars.sum COMPRESS_THRESHOLD
  compressWalk target chars 0 0 messages.length

/-- `get_first_user_message_index`: index of the first message whose
`"role"` is `"user"`, or `0` if there is none. -/
def get_first_user_message_index (messages : List Msg) : Nat :=
  (messages.findIdx? isUserMsg).getD 0

/-- `maybe_compress_messages`.  `oracle` stands for the summarization model
call: it maps the prefix sent for compression to the extracted snapshot
text (the function makes no other use of the network). -/
def maybe_compress_messages (oracle : List Msg → String)
    (messages : List Msg) (usage : Nat) : List Msg :=
  -- if usage <= TOKEN_LIMIT * COMPRESS_THRESHOLD: return messages
  if natLeDy usage (floatMulNat TOKEN_LIMIT COMPRESS_THRESHOLD) then messages
  else
    let compress_index := get_compress_message_index messages
    if compress_index ≥ messages.length then messages
    else
      let compress_index :=
        compress_index + get_first_user_message_index (messages.drop compress_index)
      if compress_index = 0 then messages
      else
        -- last_message = messages[compress_index - 1]
        let last_message := messages.getD (compress_index - 1) []
        let compress_index :=
          if isFunctionCallType last_message then compress_index + 1 else compress_index
        let to_compress_messages := messages.take compress_index
        let to_keep_messages := messages.drop compress_index
        if to_compress_messages.length > 0 then
          compress_messages (oracle to_compress_messages) ++ to_keep_messages
        else messages

/-- The split index used by `maybe_compress_messages` when no user turn
exists at or after the character-budget split: the unadvanced index, plus
one when the entry before it is a legacy `"type": "function_call"` entry. -/
def adjustedSplit (messages : List Msg) : Nat :=
  let ci := get_compress_message_index messages
  if isFunctionCallType (messages.getD (ci - 1) []) then ci + 1 else ci

/-! ## Tool registry and dispatcher (`app/utils/tools.py`) -/

/-- Python exceptions distinguished by the handler chain of `execute_tool`
(`except json.JSONDecodeError` / `except KeyError` / `except Exception`). -/
inductive PyExc where
  | jsonDecodeError (msg : String)
  | keyError (msg : String)
  | other (msg : String)
deriving DecidableEq

/-- A registered tool: receives the keyword arguments expanded from the
parsed JSON object (`tools_dict[name](**args_dict, **kwargs)`; the ambient
`sbx` keyword is a no-op in this service and is not modelled) and either
returns a `(result, metadata)` pair or raises. -/
def Tool := JObj → Except PyExc (JVal × JObj)

/-- `{"error": msg}`. -/
def errObj (msg : String) : JVal :=
  .obj (.cons ("error") (.str msg) .nil)

/-- The raw arguments handed to `execute_tool`: a JSON string from the
model, or an already-parsed value. -/
inductive RawArgs where
  | str (s : String)
  | val (v : JVal)

/-- `args_dict = json.loads(args) if isinstance(args, str) else args`.
`jloads` is the `json.loads` collaborator; its failure raises
`json.JSONDecodeError`. -/
def parsedArgs (jloads : String → Except String JVal) : RawArgs → Except PyExc JVal
  | .str s =>
    match jloads s with
    | .ok v => .ok v
    | .error e => .error (.jsonDecodeError e)
  | .val v => .ok v

/-- Registry lookup (`name in tools_dict` / `tools_dict[name]`). -/
def lookupTool (name : String) (tools_dict : List (String × Tool)) : Option Tool :=
  match tools_dict.find? (fun kv => kv.1 == name) with
  | some kv => some kv.2
  | none => none

/-- Calling `tools_dict[name](**args_dict)`: keyword expansion of a
non-mapping raises `TypeError` (caught by the generic handler). -/
def callTool (f : Tool) : JVal → Except PyExc (JVal × JObj)
  | .obj kvs => f kvs
  | _ => .error (.other ("argument after ** must be a mapping"))

/-- `execute_tool`: parse the arguments, look the tool up, call it, and map
every exception to a structured `{"error": ...}` result.  `metadata` starts
as `{}` and is replaced only by a successful tool return; the function
itself is total (never raises). -/
def execute_tool (jloads : String → Except String JVal) (name : String)
    (args : RawArgs) (tools_dict : List (String × Tool)) : JVal × JObj :=
  let attempt : Except PyExc (JVal × JObj) :=
    match parsedArgs jloads args with
    | .error e => .error e
    | .ok argsVal =>
      match lookupTool name tools_dict with
      | none => .ok (errObj ("Tool " ++ name ++ " doesn\x27t exist."), .nil)
      | some f => callTool f argsVal
  match attempt with
  | .ok (result, metadata) => (result, metadata)
  | .error (.jsonDecodeError e) =>
    (errObj (name ++ " failed to parse arguments: " ++ e), .nil)
  | .error (.keyError e) => (errObj ("Missing key in arguments: " ++ e), .nil)
  | .error (.other e) => (errObj e, .nil)

/-- The successful dispatch path: the arguments parse to a mapping, the
tool is registered, and its body returns instead of raising. -/
def toolSucceeded (jloads : String → Except String JVal) (name : String)
    (args : RawArgs) (tools_dict : List (String × Tool)) : Prop :=
  ∃ kvs f r m, parsedArgs jloads args = .ok (.obj kvs)
    ∧ lookupTool name tools_dict = some f
    ∧ f kvs = .ok (r, m)

/-- Key scan of an object spine for `"error"`. -/
def hasErrorKeyObj : JObj → Bool
  | .nil => false
  | .cons k _ rest => k == "error" || hasErrorKeyObj rest

/-- Does a result dict contain the `"error"` key? -/
def hasErrorKey : JVal → Bool
  | .obj kvs => hasErrorKeyObj kvs
  | _ => false

/-! ## The agent loop (`coding_agent` in `coding_agent_service.py`)

The chat model is an oracle `respond : Nat → ModelResponse` giving the
response of the n-th `chat.completions.create` call of this run — an
arbitrary (possibly adversarial) sequence.  The run is recorded as a trace
of events: one `.modelCall` per chat-completion call of the loop body, and
one `.yielded m` per message appended to the transcript and yielded by the
generator, in execution order. -/

/-- One tool call of an assistant response
(`tool_call.id` / `.function.name` / `.function.arguments`). -/
structure ToolCall where
  id : String
  name : String
  arguments : String
deriving DecidableEq

/-- A chat-completion response: the assistant message plus
`usage.total_tokens`.  An absent `tool_calls` field (`None`) is the empty
list; `has_function_call` is its non-emptiness, as in the source's
truthiness test. -/
structure ModelResponse where
  content : Option String
  tool_calls : List ToolCall
  total_tokens : Nat

/-- JSON form of one tool call inside the dumped assistant message. -/
def toolCallJson (tc : ToolCall) : JVal :=
  .obj (.cons ("id") (.str tc.id)
    (.cons ("type") (.str ("function"))
      (.cons ("function")
        (.obj (.cons ("name") (.str tc.name)
          (.cons ("arguments") (.str tc.arguments) .nil))) .nil)))

/-- Spine conversion for the `tool_calls` array. -/
def jarrOfList : List JVal → JArr
  | [] => .nil
  | v :: rest => .cons v (jarrOfList rest)

/-- The assistant message appended to the transcript
(`response_message.model_dump()`): role, content and `tool_calls`
(`null` when the model issued none).  Further SDK fields of `model_dump`
are never consulted by the service and are not modelled. -/
def assistantMsgOf (content : Option String) (tool_calls : List ToolCall) : Msg :=
  [("role", .str ("assistant")),
   ("content", match content with | some s => .str s | none => .null),
   ("tool_calls",
     match tool_calls with
     | [] => .null
     | tcs => .arr (jarrOfList (tcs.map toolCallJson)))]

/-- The tool-result message appended after dispatching one tool call:
`{"role": "tool", "tool_call_id": ..., "content": json.dumps(result),
"_metadata": metadata}`. -/
def toolResultMsg (id : String) (result : JVal) (metadata : JObj) : Msg :=
  [("role", .str ("tool")),
   ("tool_call_id", .str id),
   ("content", .str (dumps result)),
   ("_metadata", .obj metadata)]

/-- Observable events of one run: a chat-completion call made by the loop
body, or a message appended to the transcript and yielded. -/
inductive AgentEvent where
  | modelCall : AgentEvent
  | yielded (m : Msg) : AgentEvent

/-- Dispatch the tool calls of one assistant turn, in the order the model
listed them, appending one tool-result message each. -/
def runToolCalls (jloads : String → Except String JVal)
    (tools_dict : List (String × Tool)) :
    List ToolCall → List Msg → List AgentEvent × List Msg
  | [], messages => ([], messages)
  | tc :: rest, messages =>
    let rm := execute_tool jloads tc.name (.str tc.arguments) tools_dict
    let result_msg := toolResultMsg tc.id rm.1 rm.2
    let step := runToolCalls jloads tools_dict rest (messages ++ [result_msg])
    (.yielded result_msg :: step.1, step.2)

/-- The `while steps < max_steps` loop of `coding_agent`; `fuel` is the
number of remaining steps and `callIdx` the index of the next model call.
Each iteration reassigns
`messages = maybe_compress_messages(client, clean_messages_for_llm(messages), usage)`,
calls the model, appends the assistant message, dispatches its tool calls,
and stops when the response carried none. -/
def agentLoop (respond : Nat → ModelResponse) (oracle : List Msg → String)
    (jloads : String → Except String JVal) (tools_dict : List (String × Tool)) :
    Nat → Nat → List Msg → Nat → List AgentEvent × List Msg × Nat
  | 0, _, messages, usage => ([], messages, usage)
  | fuel + 1, callIdx, messages, usage =>
    let messages := maybe_compress_messages oracle (clean_messages_for_llm messages) usage
    let response := respond callIdx
    let usage := response.total_tokens
    let assistant_msg := assistantMsgOf response.content response.tool_calls
    let messages := messages ++ [assistant_msg]
    let tcStep := runToolCalls jloads tools_dict response.tool_calls messages
    if response.tool_calls.isEmpty then
      (.modelCall :: [.yielded assistant_msg], messages, usage)
    else
      let rest := agentLoop respond oracle jloads tools_dict fuel (callIdx + 1) tcStep.2 usage
      (.modelCall :: .yielded assistant_msg :: (tcStep.1 ++ rest.1), rest.2.1, rest.2.2)

/-- `coding_agent`: append the user turn, yield it, and run the
step-bounded loop.  Returns the event trace, the final transcript, and the
final usage. -/
def coding_agent (respond : Nat → ModelResponse) (oracle : List Msg → String)
    (jloads : String → Except String JVal) (tools_dict : List (String × Tool))
    (query : String) (max_steps : Nat) (messages : List Msg) (usage : Nat) :
    List AgentEvent × List Msg × Nat :=
  let user_message : Msg := [("role", .str ("user")), ("content", .str query)]
  let messages := messages ++ [user_message]
  let run := agentLoop respond oracle jloads tools_dict max_steps 0 messages usage
  (.yielded user_message :: run.1, run.2.1, run.2.2)

/-- Number of chat-completion calls recorded in a trace. -/
def modelCallCount (events : List AgentEvent) : Nat :=
  events.countP fun e => match e with | .modelCall => true | _ => false

/-- Collect the `"id"` fields of an array of tool-call objects. -/
def idsOfArr : JArr → List String
  | .nil => []
  | .cons (.obj (.cons ("id") (.str i) _)) rest => i :: idsOfArr rest
  | .cons _ rest => idsOfArr rest

/-- The ids of the tool calls issued by a yielded assistant message
(empty for every other message). -/
def assistantToolCallIds (m : Msg) : List String :=
  match getKey m ("role") with
  | some (.str r) =>
    if r == "assistant" then
      match getKey m ("tool_calls") with
      | some (.arr a) => idsOfArr a
      | _ => []
    else []
  | _ => []

/-- The `tool_call_id` of a yielded tool-result message. -/
def toolCallIdOf (m : Msg) : Option String :=
  match getKey m ("role") with
  | some (.str r) =>
    if r == "tool" then
      match getKey m ("tool_call_id") with
      | some (.str i) => some i
      | _ => none
    else none
  | _ => none

mutual
/-- A trace is well paired when every yielded assistant message that issued
tool calls is immediately followed by the yields of the matching tool
results, in the listed order, before any further model call. -/
def tracePaired : List AgentEvent → Bool
  | [] => true
  | .modelCall :: rest => tracePaired rest
  | .yielded m :: rest => expectResults (assistantToolCallIds m) rest

/-- Consume the expected tool-result yields for the pending call ids, then
continue checking the trace. -/
def expectResults : List String → List AgentEvent → Bool
  | [], events => tracePaired events
  | i :: ids, .yielded m :: events =>
    toolCallIdOf m == some i && expectResults ids events
  | _ :: _, _ => false
end

/-! ## Image/artifact extraction (`app/utils/image_processor.py`)

The file system is the collaborator `fs : String → Option (List Nat)`
mapping a full path to the file's bytes (`none` = the path does not exist;
read errors beyond non-existence are not modelled). -/

/-- Standard base64 alphabet. -/
def b64Table : List Char :=
  "ABCDEFGHIJKLMNOPQRSTUVWXYZabcdefghijklmnopqrstuvwxyz0123456789+/".toList

/-- Character `n` (0..63) of the base64 alphabet. -/
def b64Char (n : Nat) : Char :=
  b64Table.getD n 'A'

/-- `base64.b64encode(...).decode('utf-8')` on a byte list (RFC 4648 with
padding). -/
def b64encode : List Nat → List Char
  | [] => []
  | [a] =>
    [b64Char (a / 4 % 64), b64Char (a % 4 * 16), '=', '=']
  | [a, b] =>
    [b64Char (a / 4 % 64), b64Char ((a % 4 * 16 + b / 16) % 64),
     b64Char (b % 16 * 4), '=']
  | a :: b :: c :: rest =>
    b64Char (a / 4 % 64) :: b64Char ((a % 4 * 16 + b / 16) % 64) ::
    b64Char ((b % 16 * 4 + c / 64) % 64) :: b64Char (c % 64) :: b64encode rest

/-- Base64 of a file's bytes, as a string. -/
def b64encodeStr (bytes : List Nat) : String :=
  ⟨b64encode bytes⟩

/-- Last path component (`PurePath.name` for the paths in scope). -/
def lastComponent (p : String) : String :=
  (pySplit p ("/")).getLastD ("")

/-- Index of the last `'.'` in a name, scanning with an accumulator. -/
def rfindDotAux : List Char → Nat → Option Nat → Option Nat
  | [], _, best => best
  | c :: rest, i, best =>
    rfindDotAux rest (i + 1) (if c = '.' then some i else best)

/-- `PurePath.suffix`: the extension of the final component including the
dot, or `""` when the last dot is absent, leading, or trailing. -/
def pathSuffix (p : String) : String :=
  let name := lastComponent p
  match rfindDotAux name.toList 0 none with
  | some i => if 0 < i ∧ i + 1 < name.length then ⟨name.toList.drop i⟩ else ("")
  | none => ""

/-- The extension-to-MIME table of `convert_image_to_base64`, with default
`image/png`. -/
def mimeFromSuffix (ext : String) : String :=
  if ext == ".png" then ("image/png")
  else if ext == ".jpg" then ("image/jpeg")
  else if ext == ".jpeg" then ("image/jpeg")
  else if ext == ".gif" then ("image/gif")
  else if ext == ".svg" then ("image/svg+xml")
  else ("image/png")

/-- Lines of one result string that are image markers: split on newlines,
strip, keep those starting with `IMAGE:`, and return
`line.replace("IMAGE:", "").strip()` for each. -/
def markerPathsOfLine (result_line : String) : List String :=
  if pyContains result_line ("IMAGE:") then
    ((pySplit result_line ("\n")).filter
        fun line => pyStartsWith (pyStrip line) ("IMAGE:")).map
      fun line => pyStrip (pyReplace line ("IMAGE:") "")
  else []

/-- Keep the string elements of an array spine. -/
def strsOfArr : JArr → List String
  | .nil => []
  | .cons (.str s) rest => s :: strsOfArr rest
  | .cons _ rest => strsOfArr rest

/-- The string elements of the `"results"` array of one execution-result
dict (non-string elements are skipped by the `isinstance` check). -/
def resultLines (result : Msg) : List String :=
  match getKey result ("results") with
  | some (.arr a) => strsOfArr a
  | _ => []

/-- `extract_image_paths_from_results`: all image paths found in all
results, in order of appearance. -/
def extract_image_paths_from_results (results : List Msg) : List String :=
  results.flatMap fun result => (resultLines result).flatMap markerPathsOfLine

/-- Outcome of `convert_image_to_base64`
(the `success` / failure dict shapes of the source). -/
inductive ConvResult where
  | ok (base64_data : String) (filename : String) (mime_type : String)
  | err (msg : String)

/-- `convert_image_to_base64`: resolve under the base directory, read and
base64-encode the bytes, infer the MIME type from the lower-cased suffix. -/
def convert_image_to_base64 (fs : String → Option (List Nat)) (baseDir : String)
    (image_path : String) : ConvResult :=
  let full_path := baseDir ++ "/" ++ image_path
  match fs full_path with
  | none => .err ("Image not found: " ++ image_path)
  | some bytes =>
    .ok (b64encodeStr bytes) (lastComponent full_path)
      (mimeFromSuffix (pyLower (pathSuffix full_path)))

/-- The response payload of `process_agent_response_with_images`. -/
structure ProcessedResponse where
  answer : String
  image_base64 : Option String
  image_mime : Option String
deriving DecidableEq

/-- `process_agent_response_with_images`: extract the marker paths, convert
only the first, and strip `IMAGE:<path>` from the answer for every
collected path (each removal followed by `strip()`). -/
def process_agent_response_with_images (fs : String → Option (List Nat))
    (baseDir : String) (final_answer : String) (results : List Msg) :
    ProcessedResponse :=
  let image_paths := extract_image_paths_from_results results
  match image_paths with
  | [] => ⟨final_answer, none, none⟩
  | first_image :: _ =>
    let conversion := convert_image_to_base64 fs baseDir first_image
    let cleaned_answer := image_paths.foldl
      (fun acc p => pyStrip (pyReplace acc ("IMAGE:" ++ p) "")) final_answer
    match conversion with
    | .ok b64 _ mime => ⟨cleaned_answer, some b64, some mime⟩
    | .err _ => ⟨cleaned_answer, none, none⟩

/-! ## Concrete instances used by the claim theorems -/

/-- A summarization oracle whose extracted snapshot text is empty. -/
def oracle0 : List Msg → String := fun _ => ""

/-- Projection used to compare transcripts without a decidable equality on
`JVal`: the `"content"` string of a message. -/
def msgContentStr (m : Msg) : String :=
  match getKey m ("content") with
  | some (.str s) => s
  | _ => ""

/-- A user turn. -/
def demoUserMsg : Msg :=
  [("role", .str ("user")), ("content", .str ("Plot the monthly revenue by store"))]

/-- The single tool call issued by the demo assistant turn. -/
def demoCall : ToolCall :=
  ⟨"call_1", "execute_code", "\x7b\x7d"⟩

/-- An assistant turn that issues one tool call (chat-completions shape:
`role`/`content`/`tool_calls`, no `"type"` key). -/
def demoAsstMsg : Msg := assistantMsgOf none [demoCall]

/-- A long tool output, as code execution typically produces. -/
def demoToolOutput : String := String.mk (List.replicate 400 'r')

/-- The tool result answering `call_1` (sanitized shape, no `_metadata`). -/
def demoToolMsg : Msg :=
  [("role", .str ("tool")), ("tool_call_id", .str ("call_1")),
   ("content", .str demoToolOutput)]

/-- A final assistant answer with no tool calls. -/
def demoFinalMsg : Msg := assistantMsgOf (some "The chart is ready.") []

/-- A transcript whose tail after the split point contains no user turn:
`[UserTurn, AssistantTurn(tool_calls), ToolResult, AssistantTurn]`. -/
def demoMsgs4 : List Msg := [demoUserMsg, demoAsstMsg, demoToolMsg, demoFinalMsg]

/-- Content of exactly 69 characters, so that the serialized user message
is exactly 100 characters long. -/
def c4content : String := String.mk (List.replicate 69 'd')

/-- A user message whose `json.dumps` serialization has 100 characters. -/
def c4Msg : Msg := [("role", .str ("user")), ("content", .str c4content)]

/-- The transcript of the spec's concrete scenario: 10 entries of
serialized length 100. -/
def c4msgs : List Msg := List.replicate 10 c4Msg

/-- A `json.loads` that parses the argument string `"\x7b\x7d"` (i.e. `{}`)
to the empty object and rejects everything else. -/
def jloads0 : String → Except String JVal := fun s =>
  if s = "\x7b\x7d" then .ok (.obj .nil)
  else .error ("Expecting value: line 1 column 1 (char 0)")

/-- A model that requests one `execute_code` call on its first response and
answers without tool calls on every later one.  The reported totals stay
far below the compression trigger. -/
def respondC3 : Nat → ModelResponse := fun n =>
  if n = 0 then ⟨none, [demoCall], 1000⟩
  else ⟨some "Done: the result is 42.", [], 2000⟩

/-- A registered tool returning the given result and metadata. -/
def toolReturning (rv : JVal) (md : JObj) : Tool := fun _ => .ok (rv, md)

/-- A two-step agent run: one tool-calling step, then a final answer.
`rv`/`md` are the result and metadata returned by the tool. -/
def c3run (rv : JVal) (md : JObj) : List AgentEvent × List Msg × Nat :=
  coding_agent respondC3 oracle0 jloads0 [("execute_code", toolReturning rv md)]
    ("Plot the data") 2 [] 0

/-- The execution-result value used in the closed C3 instance. -/
def demoResultVal : JVal :=
  .obj (.cons ("results") (.arr (.cons (.str ("IMAGE:outputs/chart.png")) .nil))
    (.cons ("errors") (.arr .nil) .nil))

/-- Non-empty tool metadata (the images side channel). -/
def demoMeta : JObj :=
  .cons ("images") (.arr (.cons (.str ("outputs/chart.png")) .nil)) .nil

/-- The `json.loads` used by the C10 witness: parses `"\x7b\x7d"` only. -/
def jloadsEmptyObj : String → Except String JVal := fun s =>
  if s = "\x7b\x7d" then .ok (.obj .nil)
  else .error ("Expecting value: line 1 column 1 (char 0)")

/-- A `json.loads` that rejects its input, as on a malformed argument
string. -/
def jloadsFailing : String → Except String JVal := fun _ =>
  .error ("Expecting value: line 1 column 1 (char 0)")

/-- A one-step agent run: the single step issues a tool call and the step
budget is then exhausted. -/
def c3run1 (rv : JVal) (md : JObj) : List AgentEvent × List Msg × Nat :=
  coding_agent respondC3 oracle0 jloads0 [("execute_code", toolReturning rv md)]
    ("Plot the data") 1 [] 0

/-- A file system with one real image file under the base directory
`app`. -/
def fsDemo : String → Option (List Nat) := fun p =>
  if p = "app/outputs/x.png" then some [137, 80, 78, 71, 13, 10] else none

/-- One execution result whose output contains the line
`IMAGE:outputs/x.png`. -/
def c9results : List Msg :=
  [[("results", .arr (.cons (.str ("Computation done\nIMAGE:outputs/x.png\n")) .nil)),
    ("errors", .arr .nil)]]

/-- A final answer carrying the marker of the generated image. -/
def c9answer : String := "Here is the chart:\nIMAGE:outputs/x.png"

/-! # Theorems -/

set_option maxRecDepth 100000

/-- The literal `0.7` rounds down: its exact binary64 value is
`6305039478318694/2^53`. -/
theorem compress_threshold_value : COMPRESS_THRESHOLD = ⟨6305039478318694, 53⟩ := by
  decide

/-- `TOKEN_LIMIT * COMPRESS_THRESHOLD` rounds to exactly `42000.0`: the
exact product `42000 - 24000/2^53` is within half an ulp of `42000`.
Hence the no-compress guard of `maybe_compress_messages` holds precisely
for integer `usage ≤ 42000`. -/
theorem token_limit_times_threshold :
    floatMulNat TOKEN_LIMIT COMPRESS_THRESHOLD = ⟨42000 * 2 ^ 37, 37⟩ := by
  decide

/-- C8: if `usage` is at or below `TOKEN_LIMIT * COMPRESS_THRESHOLD`
(exactly `42000.0` with the defaults, by `token_limit_times_threshold`),
`maybe_compress_messages` returns the transcript unchanged — the same
entries in the same order.  The equality holds for every summarization
oracle: the compression model call is never consulted on this path. -/
theorem maybe_compress_no_trigger_id (oracle : List Msg → String)
    (messages : List Msg) (usage : Nat) (h : usage ≤ 42000) :
    maybe_compress_messages oracle messages usage = messages := by
  have hguard : natLeDy usage (floatMulNat TOKEN_LIMIT COMPRESS_THRESHOLD) = true := by
    rw [token_limit_times_threshold]
    simpa [natLeDy] using Nat.mul_le_mul_right (2 ^ 37) h
  simp [maybe_compress_messages, hguard]

/-- C8 witness: at the boundary value `usage = 42000` the transcript is
returned unchanged. -/
theorem maybe_compress_no_trigger_id_witness :
    42000 ≤ 42000 ∧ maybe_compress_messages oracle0 c4msgs 42000 = c4msgs :=
  ⟨by decide, maybe_compress_no_trigger_id oracle0 c4msgs 42000 (by decide)⟩

/-- Every handler branch of `execute_tool` produces `{"error": ...}`. -/
theorem hasErrorKey_errObj (msg : String) : hasErrorKey (errObj msg) = true := by
  simp [hasErrorKey, errObj, hasErrorKeyObj]

/-- C7: on every failure path — the argument string fails to parse, the
parsed arguments are not a mapping, the tool name is not registered, or
the registered tool raises — `execute_tool` returns a result carrying the
`"error"` key.  The embedding is a total function, so no exception
propagates to the caller on any input. -/
theorem execute_tool_error_on_failure (jloads : String → Except String JVal)
    (name : String) (args : RawArgs) (tools_dict : List (String × Tool))
    (h : ¬ toolSucceeded jloads name args tools_dict) :
    hasErrorKey (execute_tool jloads name args tools_dict).1 = true := by
  unfold execute_tool
  cases hp : parsedArgs jloads args with
  | error e => cases e <;> simp [hasErrorKey_errObj]
  | ok v =>
    cases hl : lookupTool name tools_dict with
    | none => simp [hasErrorKey_errObj]
    | some f =>
      cases v with
      | obj kvs =>
        cases hf : f kvs with
        | ok rm => exact absurd ⟨kvs, f, rm.1, rm.2, hp, hl, by rw [hf]⟩ h
        | error e => cases e <;> simp [callTool, hf, hasErrorKey_errObj]
      | null => simp [callTool, hasErrorKey_errObj]
      | bool b => simp [callTool, hasErrorKey_errObj]
      | num n => simp [callTool, hasErrorKey_errObj]
      | str s => simp [callTool, hasErrorKey_errObj]
      | arr xs => simp [callTool, hasErrorKey_errObj]

/-- C7 witness: a malformed argument string for a registered-tool-free
registry yields an `"error"` result. -/
theorem execute_tool_error_on_failure_witness :
    hasErrorKey (execute_tool jloadsFailing ("execute_code")
      (.str ("not json")) []).1 = true :=
  execute_tool_error_on_failure jloadsFailing ("execute_code") (.str ("not json")) []
    (by
      rintro ⟨kvs, f, r, m, hp, hl, hf⟩
      simp [parsedArgs, jloadsFailing] at hp)

/-- C10: on every failure path of `execute_tool` — parse failure, unknown
tool, non-mapping arguments, or a raising tool body — the returned
metadata is the initial empty dict; tool-provided metadata is returned
only when the tool call completes successfully. -/
theorem execute_tool_metadata_empty_on_failure (jloads : String → Except String JVal)
    (name : String) (args : RawArgs) (tools_dict : List (String × Tool))
    (h : ¬ toolSucceeded jloads name args tools_dict) :
    (execute_tool jloads name args tools_dict).2 = .nil := by
  unfold execute_tool
  cases hp : parsedArgs jloads args with
  | error e => cases e <;> simp
  | ok v =>
    cases hl : lookupTool name tools_dict with
    | none => simp
    | some f =>
      cases v with
      | obj kvs =>
        cases hf : f kvs with
        | ok rm => exact absurd ⟨kvs, f, rm.1, rm.2, hp, hl, by rw [hf]⟩ h
        | error e => cases e <;> simp [callTool, hf]
      | null => simp [callTool]
      | bool b => simp [callTool]
      | num n => simp [callTool]
      | str s => simp [callTool]
      | arr xs => simp [callTool]

/-- C10 witness: an unknown tool name returns empty metadata. -/
theorem execute_tool_metadata_empty_on_failure_witness :
    (execute_tool jloadsEmptyObj ("ghost_tool") (.str ("\x7b\x7d")) []).2 = .nil :=
  execute_tool_metadata_empty_on_failure jloadsEmptyObj ("ghost_tool")
    (.str ("\x7b\x7d")) []
    (by
      rintro ⟨kvs, f, r, m, hp, hl, hf⟩
      simp [lookupTool] at hl)

/-- Tool dispatch records no chat-completion call. -/
theorem runToolCalls_modelCallCount (jloads : String → Except String JVal)
    (tools_dict : List (String × Tool)) (tcs : List ToolCall) (messages : List Msg) :
    modelCallCount (runToolCalls jloads tools_dict tcs messages).1 = 0 := by
  induction tcs generalizing messages with
  | nil => simp [runToolCalls, modelCallCount]
  | cons tc rest ih => simp [runToolCalls, modelCallCount, List.countP_cons] at ih ⊢; exact ih _

/-- A model-call event adds one to the count. -/
theorem modelCallCount_cons_mc (l : List AgentEvent) :
    modelCallCount (.modelCall :: l) = modelCallCount l + 1 := by
  simp [modelCallCount, List.countP_cons]

/-- A yield adds nothing to the count. -/
theorem modelCallCount_cons_y (m : Msg) (l : List AgentEvent) :
    modelCallCount (.yielded m :: l) = modelCallCount l := by
  simp [modelCallCount, List.countP_cons]

/-- The count distributes over trace concatenation. -/
theorem modelCallCount_append (l₁ l₂ : List AgentEvent) :
    modelCallCount (l₁ ++ l₂) = modelCallCount l₁ + modelCallCount l₂ := by
  simp [modelCallCount, List.countP_append]

/-- Each loop iteration makes exactly one chat-completion call, so `fuel`
iterations make at most `fuel`. -/
theorem agentLoop_modelCallCount_le (respond : Nat → ModelResponse)
    (oracle : List Msg → String) (jloads : String → Except String JVal)
    (tools_dict : List (String × Tool)) (fuel callIdx : Nat)
    (messages : List Msg) (usage : Nat) :
    modelCallCount (agentLoop respond oracle jloads tools_dict fuel callIdx messages usage).1
      ≤ fuel := by
  induction fuel generalizing callIdx messages usage with
  | zero => simp [agentLoop, modelCallCount]
  | succ n ih =>
    simp only [agentLoop]
    split
    · simp [modelCallCount, List.countP_cons]
    · rw [modelCallCount_cons_mc, modelCallCount_cons_y, modelCallCount_append,
        runToolCalls_modelCallCount]
      have h := ih (callIdx + 1)
        (runToolCalls jloads tools_dict (respond callIdx).tool_calls
          (maybe_compress_messages oracle (clean_messages_for_llm messages) usage ++
            [assistantMsgOf (respond callIdx).content (respond callIdx).tool_calls])).2
        (respond callIdx).total_tokens
      omega

/-- C5: for every query, every `max_steps`, and every (possibly
adversarial) infinite sequence of model responses — including responses
that request tool calls on every step — the run makes at most `max_steps`
chat-completion calls.  Termination is by construction: the embedding is a
total function of the step budget.  (The summarization call inside
`compress_messages` is the separate compression collaborator, modelled by
`oracle`, and is not one of the loop's model calls.) -/
theorem coding_agent_model_call_bound (respond : Nat → ModelResponse)
    (oracle : List Msg → String) (jloads : String → Except String JVal)
    (tools_dict : List (String × Tool)) (query : String) (max_steps : Nat)
    (messages : List Msg) (usage : Nat) :
    modelCallCount
        (coding_agent respond oracle jloads tools_dict query max_steps messages usage).1
      ≤ max_steps := by
  have h := agentLoop_modelCallCount_le respond oracle jloads tools_dict max_steps 0
    (messages ++ [[("role", .str ("user")), ("content", .str query)]]) usage
  simpa [coding_agent, modelCallCount, List.countP_cons] using h

/-- A tool-result message reports the id of the call it answers. -/
theorem toolCallIdOf_toolResultMsg (i : String) (r : JVal) (m : JObj) :
    toolCallIdOf (toolResultMsg i r m) = some i := rfl

/-- The ids collected from the serialized `tool_calls` array are the call
ids, in order. -/
theorem idsOfArr_jarrOfList (tcs : List ToolCall) :
    idsOfArr (jarrOfList (tcs.map toolCallJson)) = tcs.map (fun tc => tc.id) := by
  induction tcs with
  | nil => rfl
  | cons tc rest ih => simp [jarrOfList, toolCallJson, idsOfArr, ih]

/-- The appended assistant message advertises exactly the ids of the tool
calls of the response, in order. -/
theorem assistantToolCallIds_assistantMsgOf (c : Option String) (tcs : List ToolCall) :
    assistantToolCallIds (assistantMsgOf c tcs) = tcs.map (fun tc => tc.id) := by
  cases tcs with
  | nil => cases c <;> rfl
  | cons tc rest =>
    cases c with
    | none =>
      show idsOfArr (jarrOfList ((tc :: rest).map toolCallJson)) = _
      exact idsOfArr_jarrOfList _
    | some s =>
      show idsOfArr (jarrOfList ((tc :: rest).map toolCallJson)) = _
      exact idsOfArr_jarrOfList _

/-- Consuming the yields produced by `runToolCalls` satisfies exactly the
pending id list, in order, and leaves the rest of the trace to check. -/
theorem expectResults_runToolCalls (jloads : String → Except String JVal)
    (tools_dict : List (String × Tool)) (tcs : List ToolCall)
    (messages : List Msg) (events : List AgentEvent) :
    expectResults (tcs.map (fun tc => tc.id))
        ((runToolCalls jloads tools_dict tcs messages).1 ++ events)
      = tracePaired events := by
  induction tcs generalizing messages with
  | nil => simp [runToolCalls, expectResults]
  | cons tc rest ih =>
    simp [runToolCalls, expectResults, toolCallIdOf_toolResultMsg, ih]

/-- The loop's trace is well paired: every assistant yield that issued tool
calls is immediately followed by the matching tool-result yields, in the
listed order, before the next model call. -/
theorem agentLoop_tracePaired (respond : Nat → ModelResponse)
    (oracle : List Msg → String) (jloads : String → Except String JVal)
    (tools_dict : List (String × Tool)) (fuel callIdx : Nat)
    (messages : List Msg) (usage : Nat) :
    tracePaired (agentLoop respond oracle jloads tools_dict fuel callIdx messages usage).1
      = true := by
  induction fuel generalizing callIdx messages usage with
  | zero => simp [agentLoop, tracePaired]
  | succ n ih =>
    by_cases hE : (respond callIdx).tool_calls.isEmpty
    · have htc : (respond callIdx).tool_calls = [] := by
        simpa [List.isEmpty_iff] using hE
      simp [agentLoop, hE, tracePaired, assistantToolCallIds_assistantMsgOf, htc,
        expectResults]
    · simp only [agentLoop, hE, if_false, Bool.false_eq_true]
      simp only [tracePaired, assistantToolCallIds_assistantMsgOf]
      rw [expectResults_runToolCalls]
      exact ih _ _ _

/-- C6: in every run, each tool call emitted by an assistant turn is
answered by a tool-result yield with the same `tool_call_id`, appended
before the next model call (or before the loop returns), in the order the
calls were listed by the model — the whole trace is well paired. -/
theorem coding_agent_trace_paired (respond : Nat → ModelResponse)
    (oracle : List Msg → String) (jloads : String → Except String JVal)
    (tools_dict : List (String × Tool)) (query : String) (max_steps : Nat)
    (messages : List Msg) (usage : Nat) :
    tracePaired
        (coding_agent respond oracle jloads tools_dict query max_steps messages usage).1
      = true := by
  have h := agentLoop_tracePaired respond oracle jloads tools_dict max_steps 0
    (messages ++ [[("role", .str ("user")), ("content", .str query)]]) usage
  have huser : assistantToolCallIds
      [("role", JVal.str ("user")), ("content", JVal.str query)] = [] := rfl
  simp [coding_agent, tracePaired, huser, expectResults, h]

/-- C1: on the chat-format transcript
`[UserTurn, AssistantTurn(tool_calls), ToolResult, AssistantTurn]` with
`usage = 50000`, the split lands on index 2 (the tool result), no user turn
follows it, and the entry immediately before the split is an assistant turn
that issued `call_1` — yet the split is NOT extended, because the guard
tests the legacy `"type": "function_call"` key that chat-format assistant
messages do not carry.  The kept suffix therefore begins with the
`ToolResult` of `call_1` while its issuing `AssistantTurn` is compressed
away. -/
theorem compression_orphans_tool_result :
    get_compress_message_index demoMsgs4 = 2
    ∧ demoMsgs4.getD 1 [] = demoAsstMsg
    ∧ assistantToolCallIds demoAsstMsg = ["call_1"]
    ∧ isFunctionCallType demoAsstMsg = false
    ∧ maybe_compress_messages oracle0 demoMsgs4 50000
        = compress_messages ("") ++ [demoToolMsg, demoFinalMsg]
    ∧ toolCallIdOf demoToolMsg = some ("call_1") :=
  ⟨rfl, rfl, rfl, rfl, rfl, rfl⟩

/-- C2 counterexample: on `demoMsgs4` with `usage = 50000` the trigger
fires and no user turn exists at or after the split position, yet
compression is NOT skipped — the transcript changes. -/
theorem no_user_after_split_still_compresses :
    natLeDy 50000 (floatMulNat TOKEN_LIMIT COMPRESS_THRESHOLD) = false
    ∧ (demoMsgs4.drop (get_compress_message_index demoMsgs4)).findIdx? isUserMsg = none
    ∧ maybe_compress_messages oracle0 demoMsgs4 50000 ≠ demoMsgs4 := by
  refine ⟨by decide, by decide, fun h => ?_⟩
  exact absurd (congrArg (fun l => msgContentStr (l.headD [])) h) (by decide)

/-- C2 amended: when no user turn exists at or after the character-budget
split position, the advance contributes zero, so — provided the trigger
fired and the split index is strictly between 0 and the length —
compression proceeds from the unadvanced index (extended by one only for a
legacy `"type": "function_call"` predecessor); it is not skipped. -/
theorem maybe_compress_no_user_after_split (oracle : List Msg → String)
    (messages : List Msg) (usage : Nat)
    (htrig : natLeDy usage (floatMulNat TOKEN_LIMIT COMPRESS_THRESHOLD) = false)
    (hpos : 0 < get_compress_message_index messages)
    (hlt : get_compress_message_index messages < messages.length)
    (hnouser : (messages.drop (get_compress_message_index messages)).findIdx? isUserMsg
        = none) :
    maybe_compress_messages oracle messages usage
      = compress_messages (oracle (messages.take (adjustedSplit messages)))
        ++ messages.drop (adjustedSplit messages) := by
  have hfum : get_first_user_message_index
      (messages.drop (get_compress_message_index messages)) = 0 := by
    simp [get_first_user_message_index, hnouser]
  unfold maybe_compress_messages adjustedSplit
  rw [htrig]
  simp only [Bool.false_eq_true, if_false, hfum, Nat.add_zero]
  rw [if_neg (by omega : ¬ get_compress_message_index messages ≥ messages.length)]
  rw [if_neg (by omega : ¬ get_compress_message_index messages = 0)]
  by_cases hfc : isFunctionCallType
      (messages.getD (get_compress_message_index messages - 1) []) = true
  · rw [if_pos hfc,
      if_pos (by simp [List.length_take]; omega :
        (messages.take (get_compress_message_index messages + 1)).length > 0)]
  · rw [if_neg hfc,
      if_pos (by simp [List.length_take]; omega :
        (messages.take (get_compress_message_index messages)).length > 0)]

/-- C2 amended, witness: the concrete no-user-after-split transcript at
`usage = 50000`. -/
theorem maybe_compress_no_user_after_split_witness :
    natLeDy 50000 (floatMulNat TOKEN_LIMIT COMPRESS_THRESHOLD) = false
    ∧ 0 < get_compress_message_index demoMsgs4
    ∧ get_compress_message_index demoMsgs4 < demoMsgs4.length
    ∧ (demoMsgs4.drop (get_compress_message_index demoMsgs4)).findIdx? isUserMsg = none
    ∧ maybe_compress_messages oracle0 demoMsgs4 50000
        = compress_messages (oracle0 (demoMsgs4.take (adjustedSplit demoMsgs4)))
          ++ demoMsgs4.drop (adjustedSplit demoMsgs4) :=
  ⟨by decide, by decide, by decide, by decide,
    maybe_compress_no_user_after_split oracle0 demoMsgs4 50000
      (by decide) (by decide) (by decide) (by decide)⟩

/-- C3 counterexample: in the two-step run, the tool result carrying
non-empty `_metadata` is appended and yielded during step 1 (trace event
3), but the transcript returned at the end of the run no longer carries the
`_metadata` key on that entry — the sanitized list is assigned back to the
working transcript at the start of step 2. -/
theorem stored_transcript_drops_metadata :
    (c3run demoResultVal demoMeta).1.getD 3 .modelCall
        = .yielded (toolResultMsg ("call_1") demoResultVal demoMeta)
    ∧ getKey (toolResultMsg ("call_1") demoResultVal demoMeta) ("_metadata")
        = some (.obj demoMeta)
    ∧ getKey ((c3run demoResultVal demoMeta).2.1.getD 2 []) ("_metadata") = none :=
  ⟨rfl, rfl, rfl⟩

/-- C3 amended: the returned transcript keeps `_metadata` only on tool
results appended during the final loop iteration.  For every tool result
value and metadata: in the two-step run the step-1 tool result loses its
`_metadata` key (while remaining in the transcript), whereas in the
one-step run — where the same tool result is appended after the last
sanitize-and-compress — the key survives with the tool's metadata. -/
theorem metadata_survives_only_final_iteration (rv : JVal) (md : JObj) :
    (c3run rv md).1.getD 3 .modelCall = .yielded (toolResultMsg ("call_1") rv md)
    ∧ getKey (toolResultMsg ("call_1") rv md) ("_metadata") = some (.obj md)
    ∧ getKey ((c3run rv md).2.1.getD 2 []) ("_metadata") = none
    ∧ getKey ((c3run rv md).2.1.getD 2 []) ("tool_call_id") = some (.str ("call_1"))
    ∧ getKey ((c3run1 rv md).2.1.getD 2 []) ("_metadata") = some (.obj md) :=
  ⟨rfl, rfl, rfl, rfl, rfl⟩

/-- C4 counterexample: on the concrete 10×100-character transcript the
split candidate computed by `get_compress_message_index` is not 7. -/
theorem split_candidate_not_seven :
    msgChars c4msgs = List.replicate 10 100
    ∧ get_compress_message_index c4msgs ≠ 7 := by
  decide

/-- C4 amended: for the 10×100 transcript with `usage = 50000` (above the
trigger), the target is exactly 700 characters (`700·2^43 / 2^43`) and the
split candidate before advancing is 6 — the first index at which the
cumulative character sum (700 after the seventh entry) reaches the
target. -/
theorem split_candidate_is_six :
    msgChars c4msgs = List.replicate 10 100
    ∧ natLeDy 50000 (floatMulNat TOKEN_LIMIT COMPRESS_THRESHOLD) = false
    ∧ floatMulNat (msgChars c4msgs).sum COMPRESS_THRESHOLD = ⟨700 * 2 ^ 43, 43⟩
    ∧ get_compress_message_index c4msgs = 6 := by
  decide

/-- C9 counterexample: with the real file present and the marker line in
the tool result, an answer whose `IMAGE:` marker names a path that was not
collected from the tool results keeps that marker: the returned answer
still contains `IMAGE:` although the artifact was produced. -/
theorem unrelated_marker_survives :
    (process_agent_response_with_images fsDemo ("app") ("IMAGE:unrelated.png")
        c9results).image_base64
      = some (b64encodeStr [137, 80, 78, 71, 13, 10])
    ∧ pyContains
        (process_agent_response_with_images fsDemo ("app") ("IMAGE:unrelated.png")
          c9results).answer ("IMAGE:") = true :=
  ⟨rfl, rfl⟩

/-- C9 amended: for a tool result containing the line
`IMAGE:outputs/x.png` and any real file at that path under the base
directory, processing returns the base64 of the file's bytes, the MIME
type `image/png` determined by the `.png` suffix, and the answer with
every `IMAGE:<p>` occurrence removed for each collected path `p` (so no
`IMAGE:` remains when the answer's markers are exactly the collected
ones). -/
theorem process_image_round_trip (fs : String → Option (List Nat)) (bytes : List Nat)
    (hfs : fs ("app/outputs/x.png") = some bytes) :
    process_agent_response_with_images fs ("app") c9answer c9results
      = ⟨"Here is the chart:", some (b64encodeStr bytes), some ("image/png")⟩
    ∧ pyContains
        (process_agent_response_with_images fs ("app") c9answer c9results).answer
        ("IMAGE:") = false := by
  have hconv : convert_image_to_base64 fs ("app") ("outputs/x.png")
      = .ok (b64encodeStr bytes) ("x.png") ("image/png") := by
    unfold convert_image_to_base64
    rw [show ("app" ++ "/" ++ "outputs/x.png" : String) = "app/outputs/x.png" from rfl]
    simp only [hfs]
    rfl
  have hmain : process_agent_response_with_images fs ("app") c9answer c9results
      = ⟨"Here is the chart:", some (b64encodeStr bytes), some ("image/png")⟩ := by
    show (match convert_image_to_base64 fs ("app") ("outputs/x.png") with
      | .ok b64 _ mime =>
        ({ answer := "Here is the chart:", image_base64 := some b64,
           image_mime := some mime } : ProcessedResponse)
      | .err _ =>
        ({ answer := "Here is the chart:", image_base64 := none,
           image_mime := none } : ProcessedResponse))
        = ⟨"Here is the chart:", some (b64encodeStr bytes), some ("image/png")⟩
    rw [hconv]
  refine ⟨hmain, ?_⟩
  rw [hmain]
  show pyContains ("Here is the chart:") ("IMAGE:") = false
  decide

/-- C9 amended, witness: the concrete file system `fsDemo`. -/
theorem process_image_round_trip_witness :
    fsDemo ("app/outputs/x.png") = some [137, 80, 78, 71, 13, 10]
    ∧ process_agent_response_with_images fsDemo ("app") c9answer c9results
        = ⟨"Here is the chart:", some (b64encodeStr [137, 80, 78, 71, 13, 10]),
            some ("image/png")⟩ :=
  ⟨rfl, (process_image_round_trip fsDemo [137, 80, 78, 71, 13, 10] rfl).1⟩

end AgentCore
